import Mathlib

/-!
Verification of the wide-character / multibyte path translation layer of
RTEmsg-LinuxCompat (`src/Code/platform_compat.c`), shallowly embedded in Lean.

Wide strings (`wchar_t *`) are modelled as `List Nat` of code points and
multibyte strings (`char *`) as `List Nat` of byte values; in both cases the
terminating NUL is left implicit, so a list models the contents of the C
string up to (not including) its terminator.  Null pointers are modelled as
`Option` arguments (`none` = `NULL`).  The process locale is assumed to be a
UTF-8 locale (the layer itself configures `C.UTF-8`), so the libc primitives
`wcstombs` and `mbstowcs` are modelled as UTF-8 encoding and decoding; per
POSIX they fail with `EILSEQ` on unconvertible input, which is how the model
reports their failure.  `malloc` outcomes and the underlying OS calls
(`chdir`, `getcwd`, `realpath`, `readlink`, `fopen`, `remove`, `rename`) are
supplied by an explicit environment record, and heap activity on the
intermediate conversion buffers is recorded as an event trace so that
leak-freedom is provable.
-/

namespace PlatformCompat

/-- The errno values observable through the layer. -/
inductive Errno where
  | EINVAL
  | ENOMEM
  | EILSEQ
  | ERANGE
  | EOTHER (n : Nat)
deriving DecidableEq, Repr

/-- A wide code point is representable in a UTF-8 locale iff it is a Unicode
scalar value: below 0x110000 and not a surrogate. -/
def validScalar (c : Nat) : Bool :=
  decide (c < 0x110000) && !(decide (0xD800 ≤ c) && decide (c < 0xE000))

/-- UTF-8 encoding of one code point (the byte sequence `wcstombs` produces
for one `wchar_t` under a UTF-8 locale). -/
def encodeChar (c : Nat) : List Nat :=
  if c < 0x80 then [c]
  else if c < 0x800 then [0xC0 + c / 64, 0x80 + c % 64]
  else if c < 0x10000 then [0xE0 + c / 4096, 0x80 + c / 64 % 64, 0x80 + c % 64]
  else [0xF0 + c / 262144, 0x80 + c / 4096 % 64, 0x80 + c / 64 % 64, 0x80 + c % 64]

/-- UTF-8 encoding of a whole wide string (`wcstombs` on the full string). -/
def encodeWide : List Nat → List Nat
  | [] => []
  | c :: cs => encodeChar c ++ encodeWide cs

/-- A UTF-8 continuation byte. -/
def isCont (b : Nat) : Bool := decide (0x80 ≤ b) && decide (b < 0xC0)

/-- Length of a UTF-8 sequence as announced by its leading byte
(0 = invalid leading byte). -/
def charLen (b : Nat) : Nat :=
  if b < 0x80 then 1 else if b < 0xC0 then 0 else if b < 0xE0 then 2
  else if b < 0xF0 then 3 else if b < 0xF8 then 4 else 0

/-- The payload bits of a UTF-8 leading byte. -/
def leadVal (b : Nat) : Nat :=
  if b < 0x80 then b else if b < 0xE0 then b - 0xC0
  else if b < 0xF0 then b - 0xE0 else b - 0xF0

/-- Code point assembled from a leading byte and its continuation bytes. -/
def codeVal (b : Nat) (conts : List Nat) : Nat :=
  conts.foldl (fun acc cb => acc * 64 + (cb - 0x80)) (leadVal b)

/-- Decode one UTF-8 character from the front of a byte string, returning the
code point and the remaining bytes, or `none` on a malformed sequence. -/
def decode1 (l : List Nat) : Option (Nat × List Nat) :=
  match l with
  | [] => none
  | b :: bs =>
    if charLen b = 0 then none
    else if bs.length < charLen b - 1 then none
    else if (bs.take (charLen b - 1)).all isCont = true then
      some (codeVal b (bs.take (charLen b - 1)), bs.drop (charLen b - 1))
    else none

theorem decode1_length (l : List Nat) (c : Nat) (r : List Nat)
    (h : decode1 l = some (c, r)) : r.length < l.length := by
  cases l with
  | nil => simp [decode1] at h
  | cons b bs =>
    simp only [decode1] at h
    split at h
    · exact absurd h (by simp)
    · split at h
      · exact absurd h (by simp)
      · split at h
        · injection h with h'
          injection h' with h1 h2
          subst h2
          simp only [List.length_drop, List.length_cons]
          omega
        · exact absurd h (by simp)

/-- Worker for `decodeUtf8`, with explicit fuel so that it is structurally
recursive and computable by the kernel. -/
def decodeLoop : Nat → List Nat → Option (List Nat)
  | _, [] => some []
  | 0, _ :: _ => none
  | fuel + 1, b :: bs =>
    (decode1 (b :: bs)).bind (fun p => (decodeLoop fuel p.2).map (fun r => p.1 :: r))

/-- UTF-8 decoding of a byte string into code points (the conversion
`mbstowcs` performs under a UTF-8 locale); `none` models the `(size_t)-1`
failure return on an invalid sequence. -/
def decodeUtf8 (l : List Nat) : Option (List Nat) := decodeLoop l.length l

theorem decodeLoop_congr (fuel : Nat) : ∀ (fuel' : Nat) (l : List Nat),
    l.length ≤ fuel → l.length ≤ fuel' → decodeLoop fuel l = decodeLoop fuel' l := by
  induction fuel with
  | zero =>
    intro fuel' l h1 _
    have : l = [] := by
      cases l with
      | nil => rfl
      | cons a as => simp at h1
    subst this
    cases fuel' <;> rfl
  | succ f ih =>
    intro fuel' l h1 h2
    cases l with
    | nil => cases fuel' <;> rfl
    | cons b bs =>
      cases fuel' with
      | zero => simp at h2
      | succ f' =>
        show (decode1 (b :: bs)).bind (fun p => (decodeLoop f p.2).map (fun r => p.1 :: r)) =
          (decode1 (b :: bs)).bind (fun p => (decodeLoop f' p.2).map (fun r => p.1 :: r))
        cases hd : decode1 (b :: bs) with
        | none => rfl
        | some p =>
          obtain ⟨c, rest⟩ := p
          have hlen := decode1_length _ _ _ hd
          simp only [List.length_cons] at hlen h1 h2
          simp only [Option.some_bind]
          rw [ih f' rest (by omega) (by omega)]

theorem decodeUtf8_nil : decodeUtf8 [] = some [] := rfl

theorem decodeUtf8_step (l : List Nat) (c : Nat) (rest : List Nat)
    (h : decode1 l = some (c, rest)) :
    decodeUtf8 l = (decodeUtf8 rest).map (fun r => c :: r) := by
  cases l with
  | nil => simp [decode1] at h
  | cons b bs =>
    have hlen := decode1_length _ _ _ h
    simp only [List.length_cons] at hlen
    show (decode1 (b :: bs)).bind (fun p => (decodeLoop bs.length p.2).map (fun r => p.1 :: r)) = _
    rw [h]
    simp only [Option.some_bind]
    rw [decodeLoop_congr bs.length rest.length rest (by omega) (le_refl _)]
    rfl

theorem decode1_encodeChar (c : Nat) (rest : List Nat) (h : validScalar c = true) :
    decode1 (encodeChar c ++ rest) = some (c, rest) := by
  have hc : c < 0x110000 := by simp [validScalar] at h; omega
  by_cases h1 : c < 0x80
  · have e1 : encodeChar c = [c] := by unfold encodeChar; rw [if_pos h1]
    have hn : charLen c = 1 := by unfold charLen; rw [if_pos h1]
    have hv : leadVal c = c := by unfold leadVal; rw [if_pos h1]
    rw [e1]
    simp [decode1, hn, codeVal, hv]
  · by_cases h2 : c < 0x800
    · have e1 : encodeChar c = [0xC0 + c / 64, 0x80 + c % 64] := by
        unfold encodeChar; rw [if_neg h1, if_pos h2]
      have hn : charLen (0xC0 + c / 64) = 2 := by
        unfold charLen; rw [if_neg (by omega), if_neg (by omega), if_pos (by omega)]
      have hv : leadVal (0xC0 + c / 64) = c / 64 := by
        unfold leadVal
        rw [if_neg (by omega), if_pos (by omega)]
        omega
      have hcont : isCont (0x80 + c % 64) = true := by simp [isCont]; omega
      rw [e1]
      simp [decode1, hn, codeVal, hv, hcont]
      omega
    · by_cases h3 : c < 0x10000
      · have e1 : encodeChar c = [0xE0 + c / 4096, 0x80 + c / 64 % 64, 0x80 + c % 64] := by
          unfold encodeChar; rw [if_neg h1, if_neg h2, if_pos h3]
        have hn : charLen (0xE0 + c / 4096) = 3 := by
          unfold charLen
          rw [if_neg (by omega), if_neg (by omega), if_neg (by omega), if_pos (by omega)]
        have hv : leadVal (0xE0 + c / 4096) = c / 4096 := by
          unfold leadVal
          rw [if_neg (by omega), if_neg (by omega), if_pos (by omega)]
          omega
        have hcont1 : isCont (0x80 + c / 64 % 64) = true := by simp [isCont]; omega
        have hcont2 : isCont (0x80 + c % 64) = true := by simp [isCont]; omega
        rw [e1]
        simp [decode1, hn, codeVal, hv, hcont1, hcont2]
        omega
      · have e1 : encodeChar c
            = [0xF0 + c / 262144, 0x80 + c / 4096 % 64, 0x80 + c / 64 % 64, 0x80 + c % 64] := by
          unfold encodeChar; rw [if_neg h1, if_neg h2, if_neg h3]
        have hn : charLen (0xF0 + c / 262144) = 4 := by
          unfold charLen
          rw [if_neg (by omega), if_neg (by omega), if_neg (by omega), if_neg (by omega),
            if_pos (by omega)]
        have hv : leadVal (0xF0 + c / 262144) = c / 262144 := by
          unfold leadVal
          rw [if_neg (by omega), if_neg (by omega), if_neg (by omega)]
          omega
        have hcont1 : isCont (0x80 + c / 4096 % 64) = true := by simp [isCont]; omega
        have hcont2 : isCont (0x80 + c / 64 % 64) = true := by simp [isCont]; omega
        have hcont3 : isCont (0x80 + c % 64) = true := by simp [isCont]; omega
        rw [e1]
        simp [decode1, hn, codeVal, hv, hcont1, hcont2, hcont3]
        omega

theorem decode_encodeWide (w : List Nat) (h : w.all validScalar = true) :
    decodeUtf8 (encodeWide w) = some w := by
  induction w with
  | nil => rfl
  | cons c cs ih =>
    simp only [List.all_cons, Bool.and_eq_true] at h
    rw [encodeWide, decodeUtf8_step _ c (encodeWide cs) (decode1_encodeChar c _ h.1), ih h.2]
    rfl

/-- The `wcstombs(NULL, w, 0)` sizing query: required byte length, or failure
on a non-representable code point. -/
def wcstombsQuery (w : List Nat) : Option Nat :=
  if w.all validScalar then some (encodeWide w).length else none

example : encodeChar 0x61 = [0x61] := by decide
example : encodeChar 0xE9 = [0xC3, 0xA9] := by decide
example : decodeUtf8 [0xC3, 0xA9, 0x61] = some [0xE9, 0x61] := by decide
example : decodeUtf8 [0xF0, 0x9F, 0x98, 0x80] = some [0x1F600] := by decide
example : decodeUtf8 [0x80] = none := by decide

/-- Heap events on buffers handled by the layer: allocation and release of
intermediate multibyte buffers (numbered per call, with the allocated size
in bytes or wide units), and allocation of the wide result buffer whose
ownership transfers to the caller in `wgetcwd_compat`'s auto-allocation
mode. -/
inductive Ev where
  | allocMB (id : Nat) (sz : Nat)
  | freeMB (id : Nat)
  | allocW (sz : Nat)
deriving DecidableEq, Repr

/-- Outcomes of the libc/OS collaborators, supplied as an oracle: whether the
k-th `malloc` of a call succeeds, and the result of each underlying byte
string primitive (`Except.error e` models a -1/NULL return with errno `e`). -/
structure Env where
  mallocOk : Nat → Bool
  chdirRes : List Nat → Except Errno Unit
  getcwdRes : Except Errno (List Nat)
  realpathRes : List Nat → Except Errno (List Nat)
  readlinkRes : Except Errno (List Nat)
  fopenRes : List Nat → List Nat → Except Errno Nat
  removeRes : List Nat → Except Errno Unit
  renameRes : List Nat → List Nat → Except Errno Unit

/-- Result of an operation returning an `int` status: the return value, the
errno value the call set (`none` = errno left untouched), and its heap
events. -/
structure OpResult where
  ret : Int
  errno : Option Errno
  evs : List Ev
deriving DecidableEq, Repr

/-- The wide-to-multibyte conversion block repeated verbatim in
`wchdir_compat` (platform_compat.c:33-45), `wfullpath_compat` (132-144),
`_wfopen` (235-247 and 249-263), `_wremove` (285-297) and `_wrename`
(319-331 and 333-347): `wcstombs(NULL, w, 0)` sizing query (failing with
`EILSEQ` per POSIX), then `malloc(len + 1)` (failure sets `ENOMEM`), then
the real `wcstombs` into the fresh buffer.  `idx` numbers the allocation
within the enclosing call. -/
def convertWide (env : Env) (idx : Nat) (w : List Nat) :
    Except Errno (List Nat) × List Ev :=
  match wcstombsQuery w with
  | none => (Except.error Errno.EILSEQ, [])
  | some len =>
    if env.mallocOk idx then
      (Except.ok (encodeWide w), [Ev.allocMB idx (len + 1)])
    else (Except.error Errno.ENOMEM, [])

/-- `wchdir_compat` (platform_compat.c:26-50): null check, wide-to-multibyte
conversion, `chdir`, free. -/
def wchdir_compat (env : Env) (path : Option (List Nat)) : OpResult :=
  match path with
  | none => ⟨-1, some Errno.EINVAL, []⟩
  | some w =>
    match convertWide env 0 w with
    | (Except.error e, evs) => ⟨-1, some e, evs⟩
    | (Except.ok mb, evs) =>
      match env.chdirRes mb with
      | Except.ok _ => ⟨0, none, evs ++ [Ev.freeMB 0]⟩
      | Except.error e => ⟨-1, some e, evs ++ [Ev.freeMB 0]⟩

/-- Result of `wgetcwd_compat`: the contents of the returned buffer (`none`
= NULL return), whether that buffer was freshly allocated (auto-allocation
mode), the caller buffer's contents after the call, errno, events. -/
structure WgetcwdOut where
  ret : Option (List Nat)
  retFresh : Bool
  callerBuf : Option (List Nat)
  errno : Option Errno
  evs : List Ev
deriving DecidableEq, Repr

/-- The auto-allocation arm of `wgetcwd_compat` (platform_compat.c:76-82):
`malloc((len + 1) * sizeof(wchar_t))`, then conversion with terminator into
the fresh buffer, then `free(mbpath)`. -/
def wgetcwdAlloc (env : Env) (buffer : Option (List Nat)) (w : List Nat)
    (evs0 : List Ev) : WgetcwdOut :=
  if env.mallocOk 1 then
    ⟨some (w ++ [0]), true, buffer, none,
      evs0 ++ [Ev.allocW (w.length + 1), Ev.freeMB 0]⟩
  else ⟨none, false, buffer, some Errno.ENOMEM, evs0 ++ [Ev.freeMB 0]⟩

/-- `wgetcwd_compat` (platform_compat.c:58-97): `getcwd(NULL, 0)` (whose
returned heap buffer is recorded as multibyte allocation 0), `mbstowcs`
sizing query (failure sets `EILSEQ`), then either auto-allocation
(`buffer == NULL || size == 0`), or the `len >= size` capacity check
(`ERANGE`, buffer untouched), or conversion into the caller's buffer with
terminator. -/
def wgetcwd_compat (env : Env) (buffer : Option (List Nat)) (size : Nat) :
    WgetcwdOut :=
  match env.getcwdRes with
  | Except.error e => ⟨none, false, buffer, some e, []⟩
  | Except.ok mb =>
    match decodeUtf8 mb with
    | none =>
      ⟨none, false, buffer, some Errno.EILSEQ,
        [Ev.allocMB 0 (mb.length + 1), Ev.freeMB 0]⟩
    | some w =>
      match buffer with
      | none => wgetcwdAlloc env none w [Ev.allocMB 0 (mb.length + 1)]
      | some b =>
        if size = 0 then wgetcwdAlloc env (some b) w [Ev.allocMB 0 (mb.length + 1)]
        else if w.length ≥ size then
          ⟨none, false, some b, some Errno.ERANGE,
            [Ev.allocMB 0 (mb.length + 1), Ev.freeMB 0]⟩
        else
          ⟨some (w ++ [0] ++ b.drop (w.length + 1)), false,
            some (w ++ [0] ++ b.drop (w.length + 1)), none,
            [Ev.allocMB 0 (mb.length + 1), Ev.freeMB 0]⟩

/-- `get_pgmptr_compat` (platform_compat.c:104-116): `readlink` on
`/proc/self/exe` into a static `PATH_MAX` buffer (so the stored path is
truncated to `PATH_MAX - 1 = 4095` bytes); on failure returns -1 leaving
`*ptr` (the second component) untouched.  `old` is the prior value of
`*ptr`. -/
def get_pgmptr_compat (env : Env) (old : Option (List Nat)) :
    Int × Option (List Nat) :=
  match env.readlinkRes with
  | Except.error _ => (-1, old)
  | Except.ok l => (0, some (l.take 4095))

/-- Result of `wfullpath_compat`: the returned pointer's contents (`none` =
NULL), the caller destination buffer's contents after the call, errno,
events. -/
structure WfullpathOut where
  ret : Option (List Nat)
  dstBuf : Option (List Nat)
  errno : Option Errno
  evs : List Ev
deriving DecidableEq, Repr

/-- `wfullpath_compat` (platform_compat.c:125-164): null/zero-size check
(`EINVAL`), wide-to-multibyte conversion of `src`, `realpath`, free, then
`mbstowcs` sizing query on the resolved path where both a query failure and
`len >= size` set `ERANGE` and return NULL with the destination untouched;
otherwise the resolved path is converted into `dst` with terminator. -/
def wfullpath_compat (env : Env) (dst : Option (List Nat))
    (src : Option (List Nat)) (size : Nat) : WfullpathOut :=
  match dst, src with
  | none, _ => ⟨none, none, some Errno.EINVAL, []⟩
  | some b, none => ⟨none, some b, some Errno.EINVAL, []⟩
  | some b, some w =>
    if size = 0 then ⟨none, some b, some Errno.EINVAL, []⟩
    else
      match convertWide env 0 w with
      | (Except.error e, evs) => ⟨none, some b, some e, evs⟩
      | (Except.ok mb, evs) =>
        match env.realpathRes mb with
        | Except.error e => ⟨none, some b, some e, evs ++ [Ev.freeMB 0]⟩
        | Except.ok resolved =>
          match decodeUtf8 resolved with
          | none => ⟨none, some b, some Errno.ERANGE, evs ++ [Ev.freeMB 0]⟩
          | some w2 =>
            if w2.length ≥ size then
              ⟨none, some b, some Errno.ERANGE, evs ++ [Ev.freeMB 0]⟩
            else
              ⟨some (w2 ++ [0] ++ b.drop (w2.length + 1)),
                some (w2 ++ [0] ++ b.drop (w2.length + 1)), none,
                evs ++ [Ev.freeMB 0]⟩

/-- Result of `MultiByteToWideChar_compat`: the returned count, the
destination buffer's contents after the call, errno, the static
`locale_set` flag after the call, how many times `setlocale` ran during the
call, and heap events. -/
structure MbtwcOut where
  ret : Int
  dstBuf : Option (List Nat)
  errno : Option Errno
  localeSet : Bool
  setlocaleCalls : Nat
  evs : List Ev
deriving DecidableEq, Repr

/-- `MultiByteToWideChar_compat` (platform_compat.c:176-220): null/size
check returning 0 with errno untouched; lazy `setlocale(LC_CTYPE, "C.UTF-8")`
guarded by the static `locale_set` flag; `srclen == -1` replaced by
`strlen(src)`; a null-terminated copy of the first `srclen` bytes
(`temp_src`, multibyte allocation 0, freed right after conversion; its
failure returns 0 — with errno `ENOMEM` set by `malloc` itself);
`mbstowcs(dst, temp_src, dstlen - 1)` whose failure returns 0 (errno
`EILSEQ` from `mbstowcs`; this model leaves the destination unchanged in
that case, the C library leaves it unspecified); on success the result is
NUL-terminated, truncating to `dstlen - 1` characters when the converted
string does not fit, and the number of characters written is returned.
`cp` and `flags` are accepted and ignored, as in the source.  `localeSet`
is the value of the static `locale_set` flag on entry. -/
def MultiByteToWideChar_compat (env : Env) (cp : Nat) (flags : Nat)
    (src : Option (List Nat)) (srclen : Int) (dst : Option (List Nat))
    (dstlen : Int) (localeSet : Bool) : MbtwcOut :=
  match src, dst with
  | none, _ => ⟨0, dst, none, localeSet, 0, []⟩
  | some _, none => ⟨0, none, none, localeSet, 0, []⟩
  | some s, some d =>
    if dstlen ≤ 0 then ⟨0, some d, none, localeSet, 0, []⟩
    else
      let calls := if localeSet then 0 else 1
      let n : Nat := if srclen = -1 then s.length else srclen.toNat
      if env.mallocOk 0 then
        let m := dstlen.toNat
        match decodeUtf8 (s.take n) with
        | none =>
          ⟨0, some d, some Errno.EILSEQ, true, calls,
            [Ev.allocMB 0 (n + 1), Ev.freeMB 0]⟩
        | some w =>
          ⟨(min w.length (m - 1) : Nat),
            some (w.take (min w.length (m - 1)) ++ [0]
              ++ d.drop (min w.length (m - 1) + 1)),
            none, true, calls, [Ev.allocMB 0 (n + 1), Ev.freeMB 0]⟩
      else ⟨0, some d, some Errno.ENOMEM, true, calls, []⟩

/-- Result of `_wfopen`: the `FILE *` handle (`none` = NULL), errno,
events. -/
structure WfopenOut where
  ret : Option Nat
  errno : Option Errno
  evs : List Ev
deriving DecidableEq, Repr

/-- `_wfopen` (platform_compat.c:228-271): null checks (`EINVAL`),
conversion of filename then mode (the filename buffer is freed if the mode
conversion or its allocation fails), `fopen`, both buffers freed. -/
def _wfopen (env : Env) (filename : Option (List Nat))
    (mode : Option (List Nat)) : WfopenOut :=
  match filename, mode with
  | none, _ => ⟨none, some Errno.EINVAL, []⟩
  | some _, none => ⟨none, some Errno.EINVAL, []⟩
  | some f, some m =>
    match convertWide env 0 f with
    | (Except.error e, evs) => ⟨none, some e, evs⟩
    | (Except.ok mbf, evs) =>
      match convertWide env 1 m with
      | (Except.error e, evs2) => ⟨none, some e, evs ++ evs2 ++ [Ev.freeMB 0]⟩
      | (Except.ok mbm, evs2) =>
        match env.fopenRes mbf mbm with
        | Except.error e =>
          ⟨none, some e, evs ++ evs2 ++ [Ev.freeMB 0, Ev.freeMB 1]⟩
        | Except.ok h =>
          ⟨some h, none, evs ++ evs2 ++ [Ev.freeMB 0, Ev.freeMB 1]⟩

/-- `_wremove` (platform_compat.c:278-304): null check (`EINVAL`),
conversion, `remove`, free. -/
def _wremove (env : Env) (filename : Option (List Nat)) : OpResult :=
  match filename with
  | none => ⟨-1, some Errno.EINVAL, []⟩
  | some f =>
    match convertWide env 0 f with
    | (Except.error e, evs) => ⟨-1, some e, evs⟩
    | (Except.ok mb, evs) =>
      match env.removeRes mb with
      | Except.ok _ => ⟨0, none, evs ++ [Ev.freeMB 0]⟩
      | Except.error e => ⟨-1, some e, evs ++ [Ev.freeMB 0]⟩

/-- `_wrename` (platform_compat.c:312-355): null checks (`EINVAL`),
conversion of the old name then the new name (the old-name buffer is freed
if the new-name conversion or its allocation fails), `rename`, both buffers
freed. -/
def _wrename (env : Env) (oldname : Option (List Nat))
    (newname : Option (List Nat)) : OpResult :=
  match oldname, newname with
  | none, _ => ⟨-1, some Errno.EINVAL, []⟩
  | some _, none => ⟨-1, some Errno.EINVAL, []⟩
  | some ow, some nw =>
    match convertWide env 0 ow with
    | (Except.error e, evs) => ⟨-1, some e, evs⟩
    | (Except.ok mbo, evs) =>
      match convertWide env 1 nw with
      | (Except.error e, evs2) => ⟨-1, some e, evs ++ evs2 ++ [Ev.freeMB 0]⟩
      | (Except.ok mbn, evs2) =>
        match env.renameRes mbo mbn with
        | Except.ok _ => ⟨0, none, evs ++ evs2 ++ [Ev.freeMB 0, Ev.freeMB 1]⟩
        | Except.error e =>
          ⟨-1, some e, evs ++ evs2 ++ [Ev.freeMB 0, Ev.freeMB 1]⟩

/-- A default concrete environment for evaluating the models on concrete
inputs: every `malloc` succeeds and every OS primitive succeeds. -/
def envDefault : Env where
  mallocOk := fun _ => true
  chdirRes := fun _ => Except.ok ()
  getcwdRes := Except.ok [0x61, 0x62]
  realpathRes := fun _ => Except.ok [0x62, 0x63]
  readlinkRes := Except.ok [0x65]
  fopenRes := fun _ _ => Except.ok 1
  removeRes := fun _ => Except.ok ()
  renameRes := fun _ _ => Except.ok ()

example : (wchdir_compat envDefault (some [0x61])).ret = 0 := by decide
example : (wgetcwd_compat envDefault none 0).ret = some [0x61, 0x62, 0] := by decide
example :
    (MultiByteToWideChar_compat envDefault 65001 0 (some [0xC3, 0xA9]) (-1)
      (some [7, 7, 7]) 3 false).dstBuf = some [0xE9, 0, 7] := by decide

/-- Ids of the intermediate multibyte buffers allocated in an event trace. -/
def mbAllocIds (evs : List Ev) : List Nat :=
  evs.filterMap (fun e => match e with | Ev.allocMB i _ => some i | _ => none)

/-- Ids of the intermediate multibyte buffers freed in an event trace. -/
def mbFreeIds (evs : List Ev) : List Nat :=
  evs.filterMap (fun e => match e with | Ev.freeMB i => some i | _ => none)

/-- Every intermediate multibyte buffer allocated during the call is freed
before it returns. -/
def mbBalanced (evs : List Ev) : Prop := mbAllocIds evs = mbFreeIds evs

/-- One invocation of an operation of the layer, for reasoning about the
process-wide locale initialization across a sequence of calls. -/
inductive LayerCall where
  | mbtwc (cp flags : Nat) (src : Option (List Nat)) (srclen : Int)
      (dst : Option (List Nat)) (dstlen : Int)
  | chdirCall (path : Option (List Nat))
  | getcwdCall (buffer : Option (List Nat)) (size : Nat)
  | fullpathCall (dst src : Option (List Nat)) (size : Nat)
  | fopenCall (filename mode : Option (List Nat))
  | removeCall (filename : Option (List Nat))
  | renameCall (oldname newname : Option (List Nat))

/-- Effect of one call on the static `locale_set` flag, paired with the
number of `setlocale` invocations the call performs.  Only
`MultiByteToWideChar_compat` contains the lazily-guarded
`setlocale(LC_CTYPE, "C.UTF-8")` (platform_compat.c:182-187); no other
operation of the layer touches the locale. -/
def stepLocale (env : Env) (ls : Bool) : LayerCall → Bool × Nat
  | LayerCall.mbtwc cp flags src srclen dst dstlen =>
    ((MultiByteToWideChar_compat env cp flags src srclen dst dstlen ls).localeSet,
      (MultiByteToWideChar_compat env cp flags src srclen dst dstlen ls).setlocaleCalls)
  | _ => (ls, 0)

/-- Run a sequence of calls, returning the final `locale_set` flag and the
total number of `setlocale` invocations performed. -/
def runLocale (env : Env) (ls : Bool) : List LayerCall → Bool × Nat
  | [] => (ls, 0)
  | c :: cs =>
    ((runLocale env (stepLocale env ls c).1 cs).1,
      (stepLocale env ls c).2 + (runLocale env (stepLocale env ls c).1 cs).2)

/-- A concrete environment in which `readlink("/proc/self/exe", ...)`
fails. -/
def envReadlinkFail : Env :=
  { envDefault with readlinkRes := Except.error (Errno.EOTHER 2) }

/-- A concrete environment in which every `malloc` fails. -/
def envMallocFail : Env :=
  { envDefault with mallocOk := fun _ => false }

/-- C1, counterexample.  The claim says `convert_multibyte_to_wide` with a
null required argument sets the last-error indicator to `EINVAL`; in the
source (platform_compat.c:178-180) the null check merely returns 0 and
never touches errno. -/
theorem claim_null_safety_cex :
    (MultiByteToWideChar_compat envDefault 65001 0 none (-1) (some [0]) 1
        false).ret = 0 ∧
    (MultiByteToWideChar_compat envDefault 65001 0 none (-1) (some [0]) 1
        false).errno = none := by
  decide

/-- C1, amended.  Every operation of the layer passed a null required
pointer argument returns its failure sentinel without reading the pointer;
`wchdir_compat`, `wfullpath_compat`, `_wfopen`, `_wremove` and `_wrename`
set errno to `EINVAL`, while `MultiByteToWideChar_compat` returns 0 leaving
errno untouched. -/
theorem claim_null_safety_amended (env : Env) (b s : List Nat)
    (srcOpt mOpt nOpt dstOpt : Option (List Nat)) (size : Nat)
    (cp flags : Nat) (srclen dstlen : Int) (ls : Bool) :
    wchdir_compat env none = ⟨-1, some Errno.EINVAL, []⟩ ∧
    wfullpath_compat env none srcOpt size = ⟨none, none, some Errno.EINVAL, []⟩ ∧
    wfullpath_compat env (some b) none size
      = ⟨none, some b, some Errno.EINVAL, []⟩ ∧
    _wfopen env none mOpt = ⟨none, some Errno.EINVAL, []⟩ ∧
    _wfopen env (some b) none = ⟨none, some Errno.EINVAL, []⟩ ∧
    _wremove env none = ⟨-1, some Errno.EINVAL, []⟩ ∧
    _wrename env none nOpt = ⟨-1, some Errno.EINVAL, []⟩ ∧
    _wrename env (some b) none = ⟨-1, some Errno.EINVAL, []⟩ ∧
    MultiByteToWideChar_compat env cp flags none srclen dstOpt dstlen ls
      = ⟨0, dstOpt, none, ls, 0, []⟩ ∧
    MultiByteToWideChar_compat env cp flags (some s) srclen none dstlen ls
      = ⟨0, none, none, ls, 0, []⟩ := by
  refine ⟨rfl, ?_, rfl, ?_, rfl, rfl, ?_, rfl, ?_, rfl⟩
  · cases srcOpt <;> rfl
  · cases mOpt <;> rfl
  · cases nOpt <;> rfl
  · cases dstOpt <;> rfl

/-- C4.  For a wide string of representable scalar values with no embedded
NUL, the wide-to-multibyte conversion used by the operations
(`convertWide`, i.e. `wcstombs`) followed by the multibyte-to-wide
conversion (`decodeUtf8`, i.e. `mbstowcs`) recovers the original string. -/
theorem claim_roundtrip (env : Env) (w mb : List Nat)
    (hval : w.all validScalar = true) (hnul : ¬ 0 ∈ w)
    (hcv : (convertWide env 0 w).1 = Except.ok mb) :
    decodeUtf8 mb = some w := by
  have hmb : mb = encodeWide w := by
    simp only [convertWide, wcstombsQuery, hval, if_true] at hcv
    cases hm : env.mallocOk 0 with
    | false => rw [hm] at hcv; simp at hcv
    | true =>
      rw [hm] at hcv
      simp at hcv
      exact hcv.symm
  rw [hmb]
  exact decode_encodeWide w hval

/-- C4 witness: a concrete round trip through one-, two-, three- and
four-byte UTF-8 sequences. -/
theorem claim_roundtrip_witness :
    decodeUtf8 (encodeWide [0x64, 0xE9, 0x4F60, 0x1F600])
      = some [0x64, 0xE9, 0x4F60, 0x1F600] :=
  claim_roundtrip envDefault [0x64, 0xE9, 0x4F60, 0x1F600]
    (encodeWide [0x64, 0xE9, 0x4F60, 0x1F600]) (by decide) (by decide) rfl

/-- C5.  The wide-to-multibyte converter is a two-pass query-then-convert:
a failing sizing query aborts with `EILSEQ` (EncodingError) before any
allocation; otherwise exactly `length + 1` bytes are allocated, an
allocation failure aborting with `ENOMEM` (OutOfMemory); and these failures
propagate through `wchdir_compat` and `_wremove` as a -1 return. -/
theorem claim_wide_to_mb_two_pass (env : Env) (idx : Nat) (w : List Nat) :
    (w.all validScalar = false →
      convertWide env idx w = (Except.error Errno.EILSEQ, [])) ∧
    (w.all validScalar = true → env.mallocOk idx = false →
      convertWide env idx w = (Except.error Errno.ENOMEM, [])) ∧
    (w.all validScalar = true → env.mallocOk idx = true →
      convertWide env idx w
        = (Except.ok (encodeWide w),
            [Ev.allocMB idx ((encodeWide w).length + 1)])) ∧
    (w.all validScalar = false →
      wchdir_compat env (some w) = ⟨-1, some Errno.EILSEQ, []⟩) ∧
    (w.all validScalar = true → env.mallocOk 0 = false →
      _wremove env (some w) = ⟨-1, some Errno.ENOMEM, []⟩) := by
  refine ⟨?_, ?_, ?_, ?_, ?_⟩
  · intro h; simp [convertWide, wcstombsQuery, h]
  · intro h hm; simp [convertWide, wcstombsQuery, h, hm]
  · intro h hm; simp [convertWide, wcstombsQuery, h, hm]
  · intro h; simp [wchdir_compat, convertWide, wcstombsQuery, h]
  · intro h hm; simp [_wremove, convertWide, wcstombsQuery, h, hm]

/-- C5 witness, exercising all three outcomes of the two-pass converter and
both propagation conjuncts at concrete inputs (0xD800 is a surrogate, hence
not representable). -/
theorem claim_wide_to_mb_two_pass_witness :
    convertWide envDefault 0 [0xD800] = (Except.error Errno.EILSEQ, []) ∧
    convertWide envMallocFail 0 [0x61] = (Except.error Errno.ENOMEM, []) ∧
    convertWide envDefault 0 [0x61]
      = (Except.ok (encodeWide [0x61]),
          [Ev.allocMB 0 ((encodeWide [0x61]).length + 1)]) ∧
    wchdir_compat envDefault (some [0xD800]) = ⟨-1, some Errno.EILSEQ, []⟩ ∧
    _wremove envMallocFail (some [0x61]) = ⟨-1, some Errno.ENOMEM, []⟩ :=
  ⟨(claim_wide_to_mb_two_pass envDefault 0 [0xD800]).1 (by decide),
    (claim_wide_to_mb_two_pass envMallocFail 0 [0x61]).2.1 (by decide) (by decide),
    (claim_wide_to_mb_two_pass envDefault 0 [0x61]).2.2.1 (by decide) (by decide),
    (claim_wide_to_mb_two_pass envDefault 0 [0xD800]).2.2.2.1 (by decide),
    (claim_wide_to_mb_two_pass envMallocFail 0 [0x61]).2.2.2.2 (by decide) (by decide)⟩

/-- C6.  In auto-allocation mode (`buffer == NULL || size == 0`), a
successful `wgetcwd_compat` allocates a fresh wide buffer of exactly
`len + 1` wide units, fills it with the current directory plus terminator,
and returns it with ownership transferred (the allocation has no matching
free in the layer). -/
theorem claim_getcwd_auto_alloc (env : Env) (buffer : Option (List Nat))
    (size : Nat) (mb w : List Nat) (hcwd : env.getcwdRes = Except.ok mb)
    (hdec : decodeUtf8 mb = some w) (hm : env.mallocOk 1 = true)
    (hauto : buffer = none ∨ size = 0) :
    wgetcwd_compat env buffer size
      = ⟨some (w ++ [0]), true, buffer, none,
          [Ev.allocMB 0 (mb.length + 1), Ev.allocW (w.length + 1),
            Ev.freeMB 0]⟩ := by
  rcases hauto with h | h
  · subst h
    simp [wgetcwd_compat, hcwd, hdec, wgetcwdAlloc, hm]
  · subst h
    cases buffer with
    | none => simp [wgetcwd_compat, hcwd, hdec, wgetcwdAlloc, hm]
    | some b => simp [wgetcwd_compat, hcwd, hdec, wgetcwdAlloc, hm]

/-- C6 witness: auto-allocation at a concrete environment whose current
directory is the two-byte path "ab". -/
theorem claim_getcwd_auto_alloc_witness :
    wgetcwd_compat envDefault none 0
      = ⟨some [0x61, 0x62, 0], true, none, none,
          [Ev.allocMB 0 3, Ev.allocW 3, Ev.freeMB 0]⟩ :=
  claim_getcwd_auto_alloc envDefault none 0 [0x61, 0x62] [0x61, 0x62] rfl
    (by decide) rfl (Or.inl rfl)

/-- C9.  `get_pgmptr_compat` leaves the caller's pointer variable untouched
whenever `readlink` fails (returning -1), and more generally writes it only
on the success path (return value 0). -/
theorem claim_pgmptr_frame (env : Env) (old : Option (List Nat)) :
    (∀ e, env.readlinkRes = Except.error e →
      get_pgmptr_compat env old = (-1, old)) ∧
    ((get_pgmptr_compat env old).1 ≠ 0 →
      (get_pgmptr_compat env old).2 = old) := by
  constructor
  · intro e he
    simp [get_pgmptr_compat, he]
  · intro h
    cases hr : env.readlinkRes with
    | error e => simp [get_pgmptr_compat, hr]
    | ok l => exact absurd (by simp [get_pgmptr_compat, hr]) h

/-- C9 witness: with a failing `readlink`, the prior pointer value survives
unchanged. -/
theorem claim_pgmptr_frame_witness :
    get_pgmptr_compat envReadlinkFail (some [0x70]) = (-1, some [0x70]) :=
  (claim_pgmptr_frame envReadlinkFail (some [0x70])).1 (Errno.EOTHER 2) rfl

/-- C10.  `MultiByteToWideChar_compat` ignores its `cp` and `flags`
arguments entirely: two calls differing only in them produce identical
results (return value, destination contents, errno, locale effects and
events). -/
theorem claim_mbtwc_cp_flags_ignored (env : Env) (cp cp' flags flags' : Nat)
    (src : Option (List Nat)) (srclen : Int) (dst : Option (List Nat))
    (dstlen : Int) (ls : Bool) :
    MultiByteToWideChar_compat env cp flags src srclen dst dstlen ls
      = MultiByteToWideChar_compat env cp' flags' src srclen dst dstlen ls := rfl

/-- C2.  With a caller-supplied buffer whose capacity cannot hold the
result plus terminator, both `wgetcwd_compat` and `wfullpath_compat` return
NULL with errno `ERANGE` and leave the caller's buffer contents exactly as
they were. -/
theorem claim_buffer_too_small (env : Env) (b b2 : List Nat) (size size2 : Nat)
    (mb w srcw rp w2 : List Nat)
    (hcwd : env.getcwdRes = Except.ok mb) (hdec : decodeUtf8 mb = some w)
    (hsz : 0 < size) (hsmall : w.length ≥ size)
    (hval : srcw.all validScalar = true) (hm : env.mallocOk 0 = true)
    (hrp : env.realpathRes (encodeWide srcw) = Except.ok rp)
    (hdec2 : decodeUtf8 rp = some w2)
    (hsz2 : 0 < size2) (hsmall2 : w2.length ≥ size2) :
    wgetcwd_compat env (some b) size
      = ⟨none, false, some b, some Errno.ERANGE,
          [Ev.allocMB 0 (mb.length + 1), Ev.freeMB 0]⟩ ∧
    wfullpath_compat env (some b2) (some srcw) size2
      = ⟨none, some b2, some Errno.ERANGE,
          [Ev.allocMB 0 ((encodeWide srcw).length + 1), Ev.freeMB 0]⟩ := by
  have h0 : ¬ size = 0 := by omega
  have h02 : ¬ size2 = 0 := by omega
  constructor
  · simp [wgetcwd_compat, hcwd, hdec, h0, hsmall]
  · simp [wfullpath_compat, convertWide, wcstombsQuery, hval, hm, hrp, hdec2,
      h02, hsmall2]

/-- C2 witness: a one-slot buffer cannot hold the two-character current
directory "ab" of `envDefault`, nor its two-character resolved path
"bc". -/
theorem claim_buffer_too_small_witness :
    wgetcwd_compat envDefault (some [7]) 1
      = ⟨none, false, some [7], some Errno.ERANGE,
          [Ev.allocMB 0 3, Ev.freeMB 0]⟩ ∧
    wfullpath_compat envDefault (some [7]) (some [0x61]) 1
      = ⟨none, some [7], some Errno.ERANGE,
          [Ev.allocMB 0 2, Ev.freeMB 0]⟩ :=
  claim_buffer_too_small envDefault [7] [7] 1 1 [0x61, 0x62] [0x61, 0x62]
    [0x61] [0x62, 0x63] [0x62, 0x63] rfl (by decide) (by decide) (by decide)
    (by decide) rfl rfl (by decide) (by decide) (by decide)

/-- C3, counterexample.  The claim says a too-small destination makes
`MultiByteToWideChar_compat` fail with RangeTooSmall and write nothing:
converting the two-byte string "ab" into a two-slot buffer needs 3 wide
units including the terminator, yet the call returns 1 (not the 0 failure
sentinel), leaves errno untouched, and overwrites the buffer `[7, 7]` with
the truncated `[0x61, 0]`. -/
theorem claim_mbtwc_range_cex :
    (MultiByteToWideChar_compat envDefault 65001 0 (some [0x61, 0x62]) 2
        (some [7, 7]) 2 false).ret = 1 ∧
    (MultiByteToWideChar_compat envDefault 65001 0 (some [0x61, 0x62]) 2
        (some [7, 7]) 2 false).dstBuf = some [0x61, 0] ∧
    (MultiByteToWideChar_compat envDefault 65001 0 (some [0x61, 0x62]) 2
        (some [7, 7]) 2 false).errno = none := by
  decide

/-- C3, amended.  When the required wide length including the terminator
exceeds the supplied capacity `dstlen`, `MultiByteToWideChar_compat` does
not fail: it truncates, writing the first `dstlen - 1` wide characters
followed by a terminator into the destination, returns `dstlen - 1`, and
leaves errno untouched. -/
theorem claim_mbtwc_truncates (env : Env) (cp flags : Nat) (s d w : List Nat)
    (srclen dstlen : Int) (ls : Bool)
    (hm : env.mallocOk 0 = true) (hpos : 0 < dstlen)
    (hdec : decodeUtf8
        (s.take (if srclen = -1 then s.length else srclen.toNat)) = some w)
    (hbig : dstlen.toNat ≤ w.length) :
    (MultiByteToWideChar_compat env cp flags (some s) srclen (some d) dstlen
        ls).ret = dstlen - 1 ∧
    (MultiByteToWideChar_compat env cp flags (some s) srclen (some d) dstlen
        ls).dstBuf
      = some (w.take (dstlen.toNat - 1) ++ [0] ++ d.drop dstlen.toNat) ∧
    (MultiByteToWideChar_compat env cp flags (some s) srclen (some d) dstlen
        ls).errno = none := by
  have hns : ¬ dstlen ≤ 0 := by omega
  have hmin : min w.length (dstlen.toNat - 1) = dstlen.toNat - 1 := by omega
  have harith : dstlen.toNat - 1 + 1 = dstlen.toNat := by omega
  have hcast : ((dstlen.toNat - 1 : Nat) : Int) = dstlen - 1 := by omega
  refine ⟨?_, ?_, ?_⟩ <;>
    simp [MultiByteToWideChar_compat, hns, hm, hdec, hmin, harith, hcast]

/-- C3 witness for the amended truncation behavior, at the same input as the
counterexample. -/
theorem claim_mbtwc_truncates_witness :
    (MultiByteToWideChar_compat envDefault 65001 0 (some [0x61, 0x62]) 2
        (some [7, 7]) 2 false).ret = 1 ∧
    (MultiByteToWideChar_compat envDefault 65001 0 (some [0x61, 0x62]) 2
        (some [7, 7]) 2 false).dstBuf = some [0x61, 0] :=
  ⟨(claim_mbtwc_truncates envDefault 65001 0 [0x61, 0x62] [7, 7] [0x61, 0x62]
      2 2 false rfl (by decide) (by decide) (by decide)).1,
    (claim_mbtwc_truncates envDefault 65001 0 [0x61, 0x62] [7, 7] [0x61, 0x62]
      2 2 false rfl (by decide) (by decide) (by decide)).2.1⟩

theorem convertWide_cases (env : Env) (idx : Nat) (w : List Nat) :
    convertWide env idx w = (Except.error Errno.EILSEQ, []) ∨
    convertWide env idx w = (Except.error Errno.ENOMEM, []) ∨
    convertWide env idx w
      = (Except.ok (encodeWide w),
          [Ev.allocMB idx ((encodeWide w).length + 1)]) := by
  cases h : w.all validScalar with
  | false => left; simp [convertWide, wcstombsQuery, h]
  | true =>
    cases hm : env.mallocOk idx with
    | false => right; left; simp [convertWide, wcstombsQuery, h, hm]
    | true => right; right; simp [convertWide, wcstombsQuery, h, hm]

theorem mbBalanced_wchdir (env : Env) (p : Option (List Nat)) :
    mbBalanced (wchdir_compat env p).evs := by
  cases p with
  | none => simp [wchdir_compat, mbBalanced, mbAllocIds, mbFreeIds]
  | some w =>
    rcases convertWide_cases env 0 w with h | h | h
    · simp [wchdir_compat, h, mbBalanced, mbAllocIds, mbFreeIds]
    · simp [wchdir_compat, h, mbBalanced, mbAllocIds, mbFreeIds]
    · cases hc : env.chdirRes (encodeWide w) <;>
        simp [wchdir_compat, h, hc, mbBalanced, mbAllocIds, mbFreeIds]

theorem mbBalanced_wgetcwdAlloc (env : Env) (b : Option (List Nat))
    (w : List Nat) (sz : Nat) :
    mbBalanced (wgetcwdAlloc env b w [Ev.allocMB 0 sz]).evs := by
  cases hm : env.mallocOk 1 <;>
    simp [wgetcwdAlloc, hm, mbBalanced, mbAllocIds, mbFreeIds]

theorem mbBalanced_wgetcwd (env : Env) (buf : Option (List Nat)) (size : Nat) :
    mbBalanced (wgetcwd_compat env buf size).evs := by
  cases hg : env.getcwdRes with
  | error e => simp [wgetcwd_compat, hg, mbBalanced, mbAllocIds, mbFreeIds]
  | ok mb =>
    cases hd : decodeUtf8 mb with
    | none => simp [wgetcwd_compat, hg, hd, mbBalanced, mbAllocIds, mbFreeIds]
    | some w =>
      cases buf with
      | none =>
        simp only [wgetcwd_compat, hg, hd]
        exact mbBalanced_wgetcwdAlloc env none w _
      | some b =>
        by_cases hs : size = 0
        · simp only [wgetcwd_compat, hg, hd, hs, if_pos]
          exact mbBalanced_wgetcwdAlloc env (some b) w _
        · by_cases hlen : w.length ≥ size
          · simp [wgetcwd_compat, hg, hd, hs, hlen, mbBalanced, mbAllocIds,
              mbFreeIds]
          · simp [wgetcwd_compat, hg, hd, hs, hlen, mbBalanced, mbAllocIds,
              mbFreeIds]

theorem mbBalanced_wfullpath (env : Env) (dst src : Option (List Nat))
    (size : Nat) : mbBalanced (wfullpath_compat env dst src size).evs := by
  cases dst with
  | none => simp [wfullpath_compat, mbBalanced, mbAllocIds, mbFreeIds]
  | some b =>
    cases src with
    | none => simp [wfullpath_compat, mbBalanced, mbAllocIds, mbFreeIds]
    | some w =>
      by_cases hs : size = 0
      · simp [wfullpath_compat, hs, mbBalanced, mbAllocIds, mbFreeIds]
      · rcases convertWide_cases env 0 w with h | h | h
        · simp [wfullpath_compat, hs, h, mbBalanced, mbAllocIds, mbFreeIds]
        · simp [wfullpath_compat, hs, h, mbBalanced, mbAllocIds, mbFreeIds]
        · cases hr : env.realpathRes (encodeWide w) with
          | error e =>
            simp [wfullpath_compat, hs, h, hr, mbBalanced, mbAllocIds, mbFreeIds]
          | ok resolved =>
            cases hd : decodeUtf8 resolved with
            | none =>
              simp [wfullpath_compat, hs, h, hr, hd, mbBalanced, mbAllocIds,
                mbFreeIds]
            | some w2 =>
              by_cases hlen : w2.length ≥ size <;>
                simp [wfullpath_compat, hs, h, hr, hd, hlen, mbBalanced,
                  mbAllocIds, mbFreeIds]

theorem mbBalanced_mbtwc (env : Env) (cp flags : Nat)
    (src : Option (List Nat)) (srclen : Int) (dst : Option (List Nat))
    (dstlen : Int) (ls : Bool) :
    mbBalanced
      (MultiByteToWideChar_compat env cp flags src srclen dst dstlen ls).evs := by
  cases src with
  | none => simp [MultiByteToWideChar_compat, mbBalanced, mbAllocIds, mbFreeIds]
  | some s =>
    cases dst with
    | none => simp [MultiByteToWideChar_compat, mbBalanced, mbAllocIds, mbFreeIds]
    | some d =>
      by_cases hn : dstlen ≤ 0
      · simp [MultiByteToWideChar_compat, hn, mbBalanced, mbAllocIds, mbFreeIds]
      · cases hm : env.mallocOk 0 with
        | false =>
          simp [MultiByteToWideChar_compat, hn, hm, mbBalanced, mbAllocIds,
            mbFreeIds]
        | true =>
          cases hd : decodeUtf8
              (s.take (if srclen = -1 then s.length else srclen.toNat)) <;>
            simp [MultiByteToWideChar_compat, hn, hm, hd, mbBalanced,
              mbAllocIds, mbFreeIds]

theorem mbBalanced_wfopen (env : Env) (f m : Option (List Nat)) :
    mbBalanced (_wfopen env f m).evs := by
  cases f with
  | none => simp [_wfopen, mbBalanced, mbAllocIds, mbFreeIds]
  | some fw =>
    cases m with
    | none => simp [_wfopen, mbBalanced, mbAllocIds, mbFreeIds]
    | some mw =>
      rcases convertWide_cases env 0 fw with h | h | h
      · simp [_wfopen, h, mbBalanced, mbAllocIds, mbFreeIds]
      · simp [_wfopen, h, mbBalanced, mbAllocIds, mbFreeIds]
      · rcases convertWide_cases env 1 mw with h2 | h2 | h2
        · simp [_wfopen, h, h2, mbBalanced, mbAllocIds, mbFreeIds]
        · simp [_wfopen, h, h2, mbBalanced, mbAllocIds, mbFreeIds]
        · cases hf : env.fopenRes (encodeWide fw) (encodeWide mw) <;>
            simp [_wfopen, h, h2, hf, mbBalanced, mbAllocIds, mbFreeIds]

theorem mbBalanced_wremove (env : Env) (f : Option (List Nat)) :
    mbBalanced (_wremove env f).evs := by
  cases f with
  | none => simp [_wremove, mbBalanced, mbAllocIds, mbFreeIds]
  | some w =>
    rcases convertWide_cases env 0 w with h | h | h
    · simp [_wremove, h, mbBalanced, mbAllocIds, mbFreeIds]
    · simp [_wremove, h, mbBalanced, mbAllocIds, mbFreeIds]
    · cases hc : env.removeRes (encodeWide w) <;>
        simp [_wremove, h, hc, mbBalanced, mbAllocIds, mbFreeIds]

theorem mbBalanced_wrename (env : Env) (o n : Option (List Nat)) :
    mbBalanced (_wrename env o n).evs := by
  cases o with
  | none => simp [_wrename, mbBalanced, mbAllocIds, mbFreeIds]
  | some ow =>
    cases n with
    | none => simp [_wrename, mbBalanced, mbAllocIds, mbFreeIds]
    | some nw =>
      rcases convertWide_cases env 0 ow with h | h | h
      · simp [_wrename, h, mbBalanced, mbAllocIds, mbFreeIds]
      · simp [_wrename, h, mbBalanced, mbAllocIds, mbFreeIds]
      · rcases convertWide_cases env 1 nw with h2 | h2 | h2
        · simp [_wrename, h, h2, mbBalanced, mbAllocIds, mbFreeIds]
        · simp [_wrename, h, h2, mbBalanced, mbAllocIds, mbFreeIds]
        · cases hr : env.renameRes (encodeWide ow) (encodeWide nw) <;>
            simp [_wrename, h, h2, hr, mbBalanced, mbAllocIds, mbFreeIds]

/-- C7.  Every intermediate multibyte buffer allocated by an operation of
the layer is freed before the operation returns, on every exit path; in
particular `_wrename` frees the old-name buffer even when handling of the
new name fails. -/
theorem claim_no_leaks (env : Env)
    (p buf dstOpt srcOpt f m o n fn : Option (List Nat))
    (size size2 cp flags : Nat) (srclen dstlen : Int) (ls : Bool) :
    mbBalanced (wchdir_compat env p).evs ∧
    mbBalanced (wgetcwd_compat env buf size).evs ∧
    mbBalanced (wfullpath_compat env dstOpt srcOpt size2).evs ∧
    mbBalanced
      (MultiByteToWideChar_compat env cp flags srcOpt srclen dstOpt dstlen
        ls).evs ∧
    mbBalanced (_wfopen env f m).evs ∧
    mbBalanced (_wremove env fn).evs ∧
    mbBalanced (_wrename env o n).evs :=
  ⟨mbBalanced_wchdir env p, mbBalanced_wgetcwd env buf size,
    mbBalanced_wfullpath env dstOpt srcOpt size2,
    mbBalanced_mbtwc env cp flags srcOpt srclen dstOpt dstlen ls,
    mbBalanced_wfopen env f m, mbBalanced_wremove env fn,
    mbBalanced_wrename env o n⟩

theorem mbtwc_locale_true (env : Env) (cp flags : Nat)
    (src : Option (List Nat)) (srclen : Int) (dst : Option (List Nat))
    (dstlen : Int) :
    (MultiByteToWideChar_compat env cp flags src srclen dst dstlen
        true).localeSet = true ∧
    (MultiByteToWideChar_compat env cp flags src srclen dst dstlen
        true).setlocaleCalls = 0 := by
  cases src with
  | none => exact ⟨rfl, rfl⟩
  | some s =>
    cases dst with
    | none => exact ⟨rfl, rfl⟩
    | some d =>
      by_cases hn : dstlen ≤ 0
      · simp [MultiByteToWideChar_compat, hn]
      · cases hm : env.mallocOk 0 with
        | false => simp [MultiByteToWideChar_compat, hn, hm]
        | true =>
          cases hd : decodeUtf8
              (s.take (if srclen = -1 then s.length else srclen.toNat)) <;>
            simp [MultiByteToWideChar_compat, hn, hm, hd]

theorem mbtwc_locale_false (env : Env) (cp flags : Nat) (s d : List Nat)
    (srclen dstlen : Int) (hn : 0 < dstlen) :
    (MultiByteToWideChar_compat env cp flags (some s) srclen (some d) dstlen
        false).localeSet = true ∧
    (MultiByteToWideChar_compat env cp flags (some s) srclen (some d) dstlen
        false).setlocaleCalls = 1 := by
  have hns : ¬ dstlen ≤ 0 := by omega
  cases hm : env.mallocOk 0 with
  | false => simp [MultiByteToWideChar_compat, hns, hm]
  | true =>
    cases hd : decodeUtf8
        (s.take (if srclen = -1 then s.length else srclen.toNat)) <;>
      simp [MultiByteToWideChar_compat, hns, hm, hd]

theorem stepLocale_true (env : Env) (c : LayerCall) :
    stepLocale env true c = (true, 0) := by
  cases c with
  | mbtwc cp flags src srclen dst dstlen =>
    have h := mbtwc_locale_true env cp flags src srclen dst dstlen
    simp [stepLocale, h.1, h.2]
  | chdirCall p => rfl
  | getcwdCall b s => rfl
  | fullpathCall d s z => rfl
  | fopenCall f m => rfl
  | removeCall f => rfl
  | renameCall o n => rfl

theorem stepLocale_false (env : Env) (c : LayerCall) :
    stepLocale env false c = (false, 0) ∨ stepLocale env false c = (true, 1) := by
  cases c with
  | mbtwc cp flags src srclen dst dstlen =>
    cases src with
    | none => left; rfl
    | some s =>
      cases dst with
      | none => left; rfl
      | some d =>
        by_cases hn : dstlen ≤ 0
        · left; simp [stepLocale, MultiByteToWideChar_compat, hn]
        · right
          have h := mbtwc_locale_false env cp flags s d srclen dstlen (by omega)
          simp [stepLocale, h.1, h.2]
  | chdirCall p => left; rfl
  | getcwdCall b s => left; rfl
  | fullpathCall d s z => left; rfl
  | fopenCall f m => left; rfl
  | removeCall f => left; rfl
  | renameCall o n => left; rfl

theorem runLocale_true (env : Env) (tr : List LayerCall) :
    runLocale env true tr = (true, 0) := by
  induction tr with
  | nil => rfl
  | cons c cs ih => simp [runLocale, stepLocale_true env c, ih]

theorem runLocale_false_le (env : Env) (tr : List LayerCall) :
    (runLocale env false tr).2 ≤ 1 := by
  induction tr with
  | nil => simp [runLocale]
  | cons c cs ih =>
    rcases stepLocale_false env c with h | h
    · simp [runLocale, h]
      exact ih
    · simp [runLocale, h, runLocale_true]

/-- C8, counterexample.  The claim says the first call of the layer that
needs the locale performs the setup and no later call does.  In the source
only `MultiByteToWideChar_compat` contains the lazy setup: running
`wchdir_compat` first (a conversion that needs the locale) performs no
setup, and the following `MultiByteToWideChar_compat` call — a subsequent
call — is the one that performs it. -/
theorem claim_locale_once_cex :
    (stepLocale envDefault false (LayerCall.chdirCall (some [0x61]))).2 = 0 ∧
    (stepLocale envDefault
        (stepLocale envDefault false (LayerCall.chdirCall (some [0x61]))).1
        (LayerCall.mbtwc 65001 0 (some [0x61]) (-1) (some [0, 0]) 2)).2
      = 1 := by
  decide

/-- C8, amended.  Only `MultiByteToWideChar_compat` performs the lazy
locale setup, guarded by the static `locale_set` flag: across any sequence
of calls the setup runs at most once (never once the flag is set), and the
first `MultiByteToWideChar_compat` call that passes its argument check
performs it exactly once and sets the flag; operations other than
`MultiByteToWideChar_compat` never perform it. -/
theorem claim_locale_once_amended (env : Env) (tr : List LayerCall)
    (cp flags : Nat) (s d : List Nat) (srclen dstlen : Int)
    (src dst : Option (List Nat)) (p : Option (List Nat)) (sz : Nat) :
    (runLocale env true tr).2 = 0 ∧
    (runLocale env false tr).2 ≤ 1 ∧
    (0 < dstlen →
      (MultiByteToWideChar_compat env cp flags (some s) srclen (some d)
          dstlen false).setlocaleCalls = 1 ∧
      (MultiByteToWideChar_compat env cp flags (some s) srclen (some d)
          dstlen false).localeSet = true) ∧
    (MultiByteToWideChar_compat env cp flags src srclen dst dstlen
        true).setlocaleCalls = 0 ∧
    (stepLocale env false (LayerCall.chdirCall p)).2 = 0 ∧
    (stepLocale env false (LayerCall.getcwdCall p sz)).2 = 0 := by
  refine ⟨?_, runLocale_false_le env tr, ?_, ?_, rfl, rfl⟩
  · rw [runLocale_true]
  · intro h
    exact ⟨(mbtwc_locale_false env cp flags s d srclen dstlen h).2,
      (mbtwc_locale_false env cp flags s d srclen dstlen h).1⟩
  · exact (mbtwc_locale_true env cp flags src srclen dst dstlen).2

/-- C8 witness for the amended statement at a concrete trace and call. -/
theorem claim_locale_once_amended_witness :
    (runLocale envDefault false
        [LayerCall.chdirCall (some [0x61]),
          LayerCall.mbtwc 65001 0 (some [0x61]) (-1) (some [0, 0]) 2,
          LayerCall.mbtwc 65001 0 (some [0x61]) (-1) (some [0, 0]) 2]).2 ≤ 1 ∧
    (MultiByteToWideChar_compat envDefault 65001 0 (some [0x61]) (-1)
        (some [0, 0]) 2 false).setlocaleCalls = 1 :=
  ⟨(claim_locale_once_amended envDefault
      [LayerCall.chdirCall (some [0x61]),
        LayerCall.mbtwc 65001 0 (some [0x61]) (-1) (some [0, 0]) 2,
        LayerCall.mbtwc 65001 0 (some [0x61]) (-1) (some [0, 0]) 2]
      65001 0 [0x61] [0, 0] (-1) 2 none none none 0).2.1,
    ((claim_locale_once_amended envDefault [] 65001 0 [0x61] [0, 0] (-1) 2
      none none none 0).2.2.1 (by decide)).1⟩

end PlatformCompat
